import Mathlib

/-!
Verification of the donutteam/npm-url-utilities redirect-chain module.

The repository ships two near-duplicate files, src/src/index.ts (the
TypeScript source) and src/index.js (an older JavaScript variant).  We embed
both: definitions suffixed TS come from src/src/index.ts, definitions
suffixed JS from src/index.js.  The HTTP transport (fetch) is an external
capability: we model it as a function from a URL and a request method to an
outcome (a thrown transport error, or a response with an ok flag and an
optional Location header).  The 3000 ms HEAD timeout is one of the ways the
HEAD fetch can throw, so it is subsumed by the throws outcome.
-/

/-- Modelled from the spec: the host environment's WHATWG URL value, restricted
to the scheme / host / path fragment that the module's control flow observes
(the spec data model: scheme, host, path; query and fragment play no role in
any claim). -/
structure URL where
  scheme : String
  host : String
  path : String
deriving DecidableEq, Repr

/-- The hostname accessor used by the modules (url.hostname). -/
def URL.hostname (u : URL) : String := u.host

/-- Splits a character list at the first colon: the scheme part and the rest. -/
def takeScheme : List Char → Option (List Char × List Char)
  | [] => none
  | c :: cs =>
    if c = ':' then some ([], cs)
    else
      match takeScheme cs with
      | none => none
      | some (sch, rest) => some (c :: sch, rest)

/-- Modelled from the spec: the host environment's URL constructor on a single
string (new URL(s)), which throws on a malformed URL.  Restricted to absolute
URLs of shape scheme://host/path: a nonempty alphabetic scheme, the literal
separator, a nonempty host, and a path that defaults to the root slash. -/
def URL.parse (s : String) : Option URL :=
  match takeScheme s.data with
  | none => none
  | some (sch, rest) =>
    match rest with
    | '/' :: '/' :: hostAndPath =>
      let hostChars := hostAndPath.takeWhile (fun c => c != '/')
      let pathChars := hostAndPath.dropWhile (fun c => c != '/')
      if !sch.isEmpty && sch.all Char.isAlpha && !hostChars.isEmpty then
        some
          { scheme := String.mk sch
            host := String.mk hostChars
            path := match pathChars with | [] => "/" | p => String.mk p }
      else none
    | _ => none

/-- Whether a string starts with the slash character: the
locationHeader.startsWith check of the source (which is only ever called with
the literal one-character slash string). -/
def startsWithSlash (s : String) : Bool :=
  match s.data with
  | '/' :: _ => true
  | _ => false

/-- Modelled from the spec: the two-argument URL constructor
(new URL(location, base)) as exercised by the module.  The call site is
guarded by the slash check, and for a path-absolute string WHATWG resolution
keeps the base scheme and host and replaces the path; for any other string
the base is irrelevant here and the string must parse absolutely. -/
def URL.resolveWithBase (s : String) (base : URL) : Option URL :=
  if startsWithSlash s then
    some { scheme := base.scheme, host := base.host, path := s }
  else URL.parse s

/-- A request method: the lightweight probe or the full request. -/
inductive Method where
  | head
  | get
deriving DecidableEq, Repr

/-- An HTTP response as the module observes it: the ok flag (status in the
success range) and the Location header, if present. -/
structure Resp where
  ok : Bool
  location : Option String
deriving DecidableEq, Repr

/-- The outcome of one fetch call: a transport-level throw (including the
abort fired by the 3000 ms timeout on the HEAD probe) or a response. -/
inductive FetchOutcome where
  | throws
  | resp (r : Resp)
deriving DecidableEq, Repr

/-- The ambient transport: what fetch does for each URL and method.  The
module issues at most one HEAD and one GET per probe, in sequence. -/
abbrev Fetch := URL → Method → FetchOutcome

/-- The domain policy table of src/src/index.ts (a Set of hostnames; we keep
the literal seed list, membership being exact string match). -/
def noHeadRequestDomains : List String :=
  ["mega.co.nz", "mega.io", "mega.nz"]

/-- The domain policy table of src/index.js (same members, listed in the
order of that file). -/
def noHeadRequestDomainsJS : List String :=
  ["mega.io", "mega.nz", "mega.co.nz"]

/-- getLocationHeader of src/src/index.ts, instrumented with the list of
fetch calls it issues.  Control flow of the source: try a HEAD request unless
the hostname is in the policy table, swallowing any throw; if no response was
obtained, issue a GET, returning null on a throw; return null when the
response is not ok; otherwise return the Location header (null when absent).
The result is in Except so that a thrown exception, were there one, would be
visible; every path of this variant returns normally. -/
def getLocationHeaderTSRun (fetch : Fetch) (url : URL) :
    List Method × Except Unit (Option String) :=
  let tryHeadRequest := !(noHeadRequestDomains.contains url.hostname)
  let headStep : List Method × Option Resp :=
    if tryHeadRequest then
      match fetch url .head with
      | .throws => ([.head], none)
      | .resp r => ([.head], some r)
    else ([], none)
  match headStep with
  | (log, some r) => (log, .ok (if r.ok then r.location else none))
  | (log, none) =>
    match fetch url .get with
    | .throws => (log ++ [.get], .ok none)
    | .resp r => (log ++ [.get], .ok (if r.ok then r.location else none))

/-- The value getLocationHeader (TS) returns: ok carries the Location header
or none; error would be a thrown exception. -/
def getLocationHeaderTS (fetch : Fetch) (url : URL) : Except Unit (Option String) :=
  (getLocationHeaderTSRun fetch url).2

/-- The fetch calls getLocationHeader (TS) issues, in order. -/
def probeRequestsTS (fetch : Fetch) (url : URL) : List Method :=
  (getLocationHeaderTSRun fetch url).1

/-- getLocationHeader of src/index.js, instrumented with the list of fetch
calls it issues.  It differs from the TS variant in two ways: the GET fetch
is not wrapped in try/catch, so a GET throw propagates to the caller, and
there is no response.ok check: the Location header is read off whatever
response was obtained. -/
def getLocationHeaderJSRun (fetch : Fetch) (url : URL) :
    List Method × Except Unit (Option String) :=
  let tryHeadRequest := !(noHeadRequestDomainsJS.contains url.hostname)
  let headStep : List Method × Option Resp :=
    if tryHeadRequest then
      match fetch url .head with
      | .throws => ([.head], none)
      | .resp r => ([.head], some r)
    else ([], none)
  match headStep with
  | (log, some r) => (log, .ok r.location)
  | (log, none) =>
    match fetch url .get with
    | .throws => (log ++ [.get], .error ())
    | .resp r => (log ++ [.get], .ok r.location)

/-- The value getLocationHeader (JS) returns, error being a propagated
fetch exception. -/
def getLocationHeaderJS (fetch : Fetch) (url : URL) : Except Unit (Option String) :=
  (getLocationHeaderJSRun fetch url).2

/-- The fetch calls getLocationHeader (JS) issues, in order. -/
def probeRequestsJS (fetch : Fetch) (url : URL) : List Method :=
  (getLocationHeaderJSRun fetch url).1

/-- The while loop of getRedirectChain in src/src/index.ts, by remaining
capacity: the loop runs while the chain is shorter than maxChainLength, so
the remaining capacity (maxChainLength minus the current chain length)
decreases by one per iteration.  Each iteration pushes the current URL, calls
getLocationHeader inside try/catch (the catch returning null for the whole
chain), breaks when the header is null or undefined, and otherwise resolves
the next URL with the slash-guarded constructor choice. -/
def walkTS (fetch : Fetch) : Nat → URL → Option (List URL)
  | 0, _ => some []
  | n + 1, url =>
    match getLocationHeaderTS fetch url with
    | .error _ => none
    | .ok none => some [url]
    | .ok (some locationHeader) =>
      match (if startsWithSlash locationHeader then
          URL.resolveWithBase locationHeader url
        else URL.parse locationHeader) with
      | none => none
      | some next => (walkTS fetch n next).map (fun rest => url :: rest)

/-- getRedirectChain of src/src/index.ts (the maxChainLength parameter
defaults to 20 at the call sites we state concretely). -/
def getRedirectChainTS (fetch : Fetch) (url : URL) (maxChainLength : Nat) :
    Option (List URL) :=
  walkTS fetch maxChainLength url

/-- The while loop of getRedirectChain in src/index.js: identical to the TS
loop except that it calls the JS probe, whose GET throw reaches this catch
and fails the whole chain. -/
def walkJS (fetch : Fetch) : Nat → URL → Option (List URL)
  | 0, _ => some []
  | n + 1, url =>
    match getLocationHeaderJS fetch url with
    | .error _ => none
    | .ok none => some [url]
    | .ok (some locationHeader) =>
      match (if startsWithSlash locationHeader then
          URL.resolveWithBase locationHeader url
        else URL.parse locationHeader) with
      | none => none
      | some next => (walkJS fetch n next).map (fun rest => url :: rest)

/-- getRedirectChain of src/index.js. -/
def getRedirectChainJS (fetch : Fetch) (url : URL) (maxChainLength : Nat) :
    Option (List URL) :=
  walkJS fetch maxChainLength url

/-- isValidURL of both files: whether the URL constructor succeeds. -/
def isValidURL (url : String) : Bool :=
  (URL.parse url).isSome

/-! Concrete transports and URLs used to instantiate the theorems. -/

/-- A concrete URL for instantiations. -/
def exURL : URL := { scheme := "https", host := "example.com", path := "/" }

/-- A transport whose every response is ok with no Location header. -/
def okNoLocFetch : Fetch := fun _ _ => .resp { ok := true, location := none }

/-- A transport on which every fetch throws. -/
def throwFetch : Fetch := fun _ _ => .throws

/-- A transport whose every response has a non-success status and no
Location header. -/
def notOkFetch : Fetch := fun _ _ => .resp { ok := false, location := none }

/-! Helper lemmas about the probes. -/

/-- The two seed lists of the policy table have the same members, so the two
files agree on every membership test. -/
theorem contains_tables_eq (s : String) :
    noHeadRequestDomainsJS.contains s = noHeadRequestDomains.contains s := by
  simp only [noHeadRequestDomains, noHeadRequestDomainsJS, List.contains_cons,
    List.contains_nil]
  cases h1 : s == "mega.co.nz" <;> cases h2 : s == "mega.io" <;>
    cases h3 : s == "mega.nz" <;> simp [h1, h2, h3]

/-- The TS probe never throws: every control path of getLocationHeader in
src/src/index.ts returns normally. -/
theorem getLocationHeaderTS_ne_error (fetch : Fetch) (url : URL) (e : Unit) :
    getLocationHeaderTS fetch url ≠ .error e := by
  unfold getLocationHeaderTS getLocationHeaderTSRun
  cases hC : noHeadRequestDomains.contains url.hostname <;>
    cases hh : fetch url .head <;> cases hg : fetch url .get <;>
      simp [hC, hh, hg]

/-- When the transport answers every method on a URL with the same response,
the TS probe returns that response's Location header filtered by its ok
flag. -/
theorem getLocationHeaderTS_const (fetch : Fetch) (url : URL) (r : Resp)
    (h : ∀ m, fetch url m = .resp r) :
    getLocationHeaderTS fetch url = .ok (if r.ok then r.location else none) := by
  unfold getLocationHeaderTS getLocationHeaderTSRun
  cases hC : noHeadRequestDomains.contains url.hostname <;> simp [hC, h]

/-- When the transport answers every method on a URL with the same response,
the JS probe returns that response's Location header unconditionally. -/
theorem getLocationHeaderJS_const (fetch : Fetch) (url : URL) (r : Resp)
    (h : ∀ m, fetch url m = .resp r) :
    getLocationHeaderJS fetch url = .ok r.location := by
  unfold getLocationHeaderJS getLocationHeaderJSRun
  cases hC : noHeadRequestDomainsJS.contains url.hostname <;> simp [hC, h]

/-- When both fetches on a URL throw, the TS probe returns the null marker
(the GET catch block). -/
theorem getLocationHeaderTS_throws (fetch : Fetch) (url : URL)
    (hh : fetch url .head = .throws) (hg : fetch url .get = .throws) :
    getLocationHeaderTS fetch url = .ok none := by
  unfold getLocationHeaderTS getLocationHeaderTSRun
  cases hC : noHeadRequestDomains.contains url.hostname <;> simp [hC, hh, hg]

/-- When both fetches on a URL throw, the JS probe propagates the GET throw
as an exception. -/
theorem getLocationHeaderJS_throws (fetch : Fetch) (url : URL)
    (hh : fetch url .head = .throws) (hg : fetch url .get = .throws) :
    getLocationHeaderJS fetch url = .error () := by
  unfold getLocationHeaderJS getLocationHeaderJSRun
  cases hC : noHeadRequestDomainsJS.contains url.hostname <;> simp [hC, hh, hg]

/-! Helper lemmas about the chain loop. -/

/-- Any chain the TS loop returns starts at the URL the loop entered with:
the current URL is pushed before the probe runs. -/
theorem walkTS_head (fetch : Fetch) (n : Nat) (url : URL) (c : List URL)
    (h : walkTS fetch (n + 1) url = some c) : c.head? = some url := by
  unfold walkTS at h
  split at h
  · simp at h
  · simp only [Option.some.injEq] at h
    subst h; rfl
  · split at h
    · exact Option.noConfusion h
    · simp only [Option.map_eq_some'] at h
      obtain ⟨rest, _, hr⟩ := h
      subst hr; rfl

/-- Any chain the TS loop returns is no longer than the remaining
capacity. -/
theorem walkTS_length (fetch : Fetch) :
    ∀ (n : Nat) (url : URL) (c : List URL),
      walkTS fetch n url = some c → c.length ≤ n := by
  intro n
  induction n with
  | zero =>
    intro url c h
    unfold walkTS at h
    simp only [Option.some.injEq] at h
    subst h; simp
  | succ n ih =>
    intro url c h
    unfold walkTS at h
    split at h
    · simp at h
    · simp only [Option.some.injEq] at h
      subst h; simp
    · split at h
      · exact Option.noConfusion h
      · simp only [Option.map_eq_some'] at h
        obtain ⟨rest, hrest, hr⟩ := h
        subst hr
        simpa using ih _ rest hrest

/-- One unfolding of the TS loop when the probe returns a redirect
target. -/
theorem walkTS_succ_some (fetch : Fetch) (n : Nat) (url : URL) (loc : String)
    (hp : getLocationHeaderTS fetch url = .ok (some loc)) :
    walkTS fetch (n + 1) url =
      match (if startsWithSlash loc then
          URL.resolveWithBase loc url
        else URL.parse loc) with
      | none => none
      | some next => (walkTS fetch n next).map (fun rest => url :: rest) := by
  conv_lhs => unfold walkTS
  rw [hp]

/-- One unfolding of the TS loop when the probe reports no redirect. -/
theorem walkTS_succ_none (fetch : Fetch) (n : Nat) (url : URL)
    (hp : getLocationHeaderTS fetch url = .ok none) :
    walkTS fetch (n + 1) url = some [url] := by
  conv_lhs => unfold walkTS
  rw [hp]

/-- When every fetch on a URL yields an ok response whose Location header is
an absolute string parsing back to that same URL, the TS loop spins on that
URL and spends its whole capacity. -/
theorem walkTS_selfloop (fetch : Fetch) (url : URL) (s : String)
    (hf : ∀ m, fetch url m = .resp { ok := true, location := some s })
    (hs : startsWithSlash s = false) (hp : URL.parse s = some url) :
    ∀ n : Nat, walkTS fetch n url = some (List.replicate n url) := by
  intro n
  induction n with
  | zero => rfl
  | succ n ih =>
    unfold walkTS
    rw [getLocationHeaderTS_const fetch url _ hf]
    simp [hs, hp, ih, List.replicate_succ]

/-- When every Location header the TS probe can return parses (the
path-absolute ones always resolve against the current URL), the TS loop
never returns the null marker. -/
theorem walkTS_isSome (fetch : Fetch)
    (hp : ∀ u s, getLocationHeaderTS fetch u = .ok (some s) →
        startsWithSlash s = false → (URL.parse s).isSome) :
    ∀ (n : Nat) (url : URL), (walkTS fetch n url).isSome := by
  intro n
  induction n with
  | zero => intro url; rfl
  | succ n ih =>
    intro url
    unfold walkTS
    cases h : getLocationHeaderTS fetch url with
    | error e => exact absurd h (getLocationHeaderTS_ne_error fetch url e)
    | ok v =>
      cases v with
      | none => rfl
      | some locationHeader =>
        cases hS : startsWithSlash locationHeader with
        | true => simp [hS, URL.resolveWithBase, ih]
        | false =>
          have hq := hp url locationHeader h hS
          cases hq2 : URL.parse locationHeader with
          | none => rw [hq2] at hq; exact absurd hq (by simp)
          | some next => simp [hS, hq2, ih]

/-- When the transport never throws on GET and every response it produces is
ok, the TS and JS probes agree on every URL. -/
theorem probes_agree (fetch : Fetch)
    (h1 : ∀ u m r, fetch u m = .resp r → r.ok = true)
    (h2 : ∀ u, fetch u .get ≠ .throws) (u : URL) :
    getLocationHeaderTS fetch u = getLocationHeaderJS fetch u := by
  unfold getLocationHeaderTS getLocationHeaderJS
    getLocationHeaderTSRun getLocationHeaderJSRun
  rw [contains_tables_eq]
  cases hC : noHeadRequestDomains.contains u.hostname with
  | true =>
    cases hg : fetch u .get with
    | throws => exact absurd hg (h2 u)
    | resp r => simp [hC, hg, h1 u .get r hg]
  | false =>
    cases hh : fetch u .head with
    | throws =>
      cases hg : fetch u .get with
      | throws => exact absurd hg (h2 u)
      | resp r => simp [hC, hh, hg, h1 u .get r hg]
    | resp r => simp [hC, hh, h1 u .head r hh]

/-- When the two probes agree pointwise, the two loops agree for every
capacity and start URL. -/
theorem walk_congr (fetch : Fetch)
    (h : ∀ u, getLocationHeaderTS fetch u = getLocationHeaderJS fetch u) :
    ∀ (n : Nat) (url : URL), walkTS fetch n url = walkJS fetch n url := by
  intro n
  induction n with
  | zero => intro url; rfl
  | succ n ih =>
    intro url
    unfold walkTS walkJS
    rw [h url]
    cases getLocationHeaderJS fetch url with
    | error e => rfl
    | ok v =>
      cases v with
      | none => rfl
      | some locationHeader =>
        cases hn : (if startsWithSlash locationHeader then
            URL.resolveWithBase locationHeader url
          else URL.parse locationHeader) with
        | none => simp [hn]
        | some next => simp [hn, ih next]

/-- When both fetches on a URL respond with a non-success status, the TS
probe returns the null marker regardless of any Location header. -/
theorem getLocationHeaderTS_notOk (fetch : Fetch) (url : URL)
    (r1 r2 : Resp)
    (hh : fetch url .head = .resp r1) (h1 : r1.ok = false)
    (hg : fetch url .get = .resp r2) (h2 : r2.ok = false) :
    getLocationHeaderTS fetch url = .ok none := by
  unfold getLocationHeaderTS getLocationHeaderTSRun
  cases hC : noHeadRequestDomains.contains url.hostname <;>
    simp [hC, hh, hg, h1, h2]

/-! The claims. -/

/-- C1, counterexample: on a transport whose every response has a non-success
status and no Location header, getRedirectChain (TS) does not report the
failure signal null; it returns the one-element chain. -/
theorem nonSuccess_no_failure_cex :
    notOkFetch exURL .head = .resp { ok := false, location := none } ∧
    notOkFetch exURL .get = .resp { ok := false, location := none } ∧
    getRedirectChainTS notOkFetch exURL 20 = some [exURL] ∧
    getRedirectChainTS notOkFetch exURL 20 ≠ none := by
  refine ⟨rfl, rfl, by decide, by decide⟩

/-- C1, amended: a hop whose responses have a non-success status and no
Location header is treated by getRedirectChain (TS) as chain termination:
the probe returns null, the loop reads that as no redirect, and the chain
built so far is returned, not the overall failure signal. -/
theorem nonSuccess_terminates_chain (fetch : Fetch) (url : URL) (n : Nat)
    (hn : 1 ≤ n)
    (hh : fetch url .head = .resp { ok := false, location := none })
    (hg : fetch url .get = .resp { ok := false, location := none }) :
    getRedirectChainTS fetch url n = some [url] := by
  obtain ⟨m, rfl⟩ : ∃ m, n = m + 1 := ⟨n - 1, by omega⟩
  have hp := getLocationHeaderTS_notOk fetch url _ _ hh rfl hg rfl
  unfold getRedirectChainTS walkTS
  rw [hp]

/-- C1, witness for the amended theorem at a concrete transport and URL. -/
theorem nonSuccess_terminates_chain_witness :
    getRedirectChainTS notOkFetch exURL 20 = some [exURL] :=
  nonSuccess_terminates_chain notOkFetch exURL 20 (by decide) rfl rfl

/-- C2, counterexample: on a transport where the fallback GET throws, the TS
module does not propagate the failure: getRedirectChain (TS) returns the
one-element chain instead of null. -/
theorem getThrow_not_propagated_cex :
    throwFetch exURL .get = .throws ∧
    getRedirectChainTS throwFetch exURL 20 = some [exURL] ∧
    getRedirectChainTS throwFetch exURL 20 ≠ none := by
  refine ⟨rfl, by decide, by decide⟩

/-- C2, amended: the two modules split on a throwing fallback GET.  In the
JS module the exception propagates and getRedirectChain returns the failure
signal null; in the TS module getLocationHeader catches it and returns null,
which the loop reads as no redirect, so the chain built so far is
returned. -/
theorem getThrow_split_behavior (fetch : Fetch) (url : URL) (n : Nat)
    (hn : 1 ≤ n)
    (hh : fetch url .head = .throws) (hg : fetch url .get = .throws) :
    getRedirectChainJS fetch url n = none ∧
    getRedirectChainTS fetch url n = some [url] := by
  obtain ⟨m, rfl⟩ : ∃ m, n = m + 1 := ⟨n - 1, by omega⟩
  constructor
  · have hp := getLocationHeaderJS_throws fetch url hh hg
    unfold getRedirectChainJS walkJS
    rw [hp]
  · have hp := getLocationHeaderTS_throws fetch url hh hg
    unfold getRedirectChainTS walkTS
    rw [hp]

/-- C2, witness for the amended theorem at a concrete transport and URL. -/
theorem getThrow_split_behavior_witness :
    getRedirectChainJS throwFetch exURL 20 = none ∧
    getRedirectChainTS throwFetch exURL 20 = some [exURL] :=
  getThrow_split_behavior throwFetch exURL 20 (by decide) rfl rfl

/-- C3, counterexample: the two module files do not define the same
observable behavior.  On a transport where every fetch throws, the TS probe
returns null and its chain is the one-element list, while the JS probe
throws and its chain is the failure signal. -/
theorem modules_differ_cex :
    getLocationHeaderTS throwFetch exURL = .ok none ∧
    getLocationHeaderJS throwFetch exURL = .error () ∧
    getRedirectChainTS throwFetch exURL 20 = some [exURL] ∧
    getRedirectChainJS throwFetch exURL 20 = none ∧
    getRedirectChainTS throwFetch exURL 20 ≠ getRedirectChainJS throwFetch exURL 20 := by
  refine ⟨rfl, rfl, by decide, by decide, by decide⟩

/-- C3, amended: the two files agree whenever the transport is clean, that
is, it never throws on GET and every response it produces has a success
status; they diverge only in failure handling (the response.ok check and the
GET try/catch exist only in the TS file). -/
theorem modules_agree_on_clean_transport (fetch : Fetch)
    (h1 : ∀ u m r, fetch u m = .resp r → r.ok = true)
    (h2 : ∀ u, fetch u .get ≠ .throws) (url : URL) (n : Nat) :
    getLocationHeaderTS fetch url = getLocationHeaderJS fetch url ∧
    getRedirectChainTS fetch url n = getRedirectChainJS fetch url n := by
  refine ⟨probes_agree fetch h1 h2 url, ?_⟩
  unfold getRedirectChainTS getRedirectChainJS
  exact walk_congr fetch (probes_agree fetch h1 h2) n url

/-- C3, witness for the amended theorem at a concrete clean transport. -/
theorem modules_agree_on_clean_transport_witness :
    getLocationHeaderTS okNoLocFetch exURL = getLocationHeaderJS okNoLocFetch exURL ∧
    getRedirectChainTS okNoLocFetch exURL 20 = getRedirectChainJS okNoLocFetch exURL 20 :=
  modules_agree_on_clean_transport okNoLocFetch
    (fun u m r h => by cases h; rfl)
    (fun u h => FetchOutcome.noConfusion h) exURL 20

/-- C4: whenever getRedirectChain (TS) returns a chain rather than the
failure signal, the chain is no longer than maxChainLength. -/
theorem chain_length_le_max (fetch : Fetch) (url : URL)
    (maxChainLength : Nat) (c : List URL)
    (h : getRedirectChainTS fetch url maxChainLength = some c) :
    c.length ≤ maxChainLength :=
  walkTS_length fetch maxChainLength url c h

/-- C4, witness at a concrete transport and URL with the default bound. -/
theorem chain_length_le_max_witness :
    getRedirectChainTS okNoLocFetch exURL 20 = some [exURL] ∧
    [exURL].length ≤ 20 :=
  ⟨by decide, chain_length_le_max okNoLocFetch exURL 20 [exURL] (by decide)⟩

/-- A transport redirecting the example URL back to itself via an absolute
Location header. -/
def selfFetch : Fetch :=
  fun _ _ => .resp { ok := true, location := some "https://example.com/" }

/-- C5: a server that always redirects a URL back to itself makes
getRedirectChain (TS) stop after exactly maxChainLength hops, returning
maxChainLength copies of the URL. -/
theorem selfredirect_chain_exact_max (fetch : Fetch) (url : URL) (s : String)
    (maxChainLength : Nat)
    (hf : ∀ m, fetch url m = .resp { ok := true, location := some s })
    (hs : startsWithSlash s = false)
    (hp : URL.parse s = some url) :
    getRedirectChainTS fetch url maxChainLength =
      some (List.replicate maxChainLength url) ∧
    ∀ c, getRedirectChainTS fetch url maxChainLength = some c →
      c.length = maxChainLength := by
  have h := walkTS_selfloop fetch url s hf hs hp maxChainLength
  refine ⟨h, fun c hc => ?_⟩
  rw [getRedirectChainTS] at hc
  rw [h] at hc
  simp only [Option.some.injEq] at hc
  subst hc
  simp

/-- C5, witness: the concrete self-redirecting transport spends the whole
default budget of 20. -/
theorem selfredirect_chain_exact_max_witness :
    getRedirectChainTS selfFetch exURL 20 = some (List.replicate 20 exURL) ∧
    (List.replicate 20 exURL).length = 20 :=
  ⟨(selfredirect_chain_exact_max selfFetch exURL "https://example.com/" 20
      (fun m => rfl) (by decide) (by decide)).1,
   (selfredirect_chain_exact_max selfFetch exURL "https://example.com/" 20
      (fun m => rfl) (by decide) (by decide)).2 _
      (selfredirect_chain_exact_max selfFetch exURL "https://example.com/" 20
        (fun m => rfl) (by decide) (by decide)).1⟩

/-- C6: whenever getRedirectChain (TS) returns a chain, its first element is
the input URL (the bound must admit at least one hop for a chain to have a
first element at all). -/
theorem chain_head_eq_input (fetch : Fetch) (url : URL) (n : Nat)
    (c : List URL) (hn : 1 ≤ n)
    (h : getRedirectChainTS fetch url n = some c) :
    c.head? = some url := by
  obtain ⟨m, rfl⟩ : ∃ m, n = m + 1 := ⟨n - 1, by omega⟩
  exact walkTS_head fetch m url c h

/-- C6, witness at a concrete transport and URL. -/
theorem chain_head_eq_input_witness :
    getRedirectChainTS okNoLocFetch exURL 20 = some [exURL] ∧
    [exURL].head? = some exURL :=
  ⟨by decide, chain_head_eq_input okNoLocFetch exURL 20 [exURL] (by decide) (by decide)⟩

/-- The current URL of the relative-resolution scenario of the spec:
https://example.com/a/b. -/
def relURL : URL := { scheme := "https", host := "example.com", path := "/a/b" }

/-- The URL the spec expects after resolving Location /c against relURL. -/
def relNextURL : URL := { scheme := "https", host := "example.com", path := "/c" }

/-- A transport that redirects relURL to the path-absolute target /c and
answers every other URL with a terminal ok response. -/
def relFetch : Fetch := fun u _ =>
  if u = relURL then .resp { ok := true, location := some "/c" }
  else .resp { ok := true, location := none }

/-- C7: when the probe of the current URL yields a redirect target, the next
chain element is resolved as the source does: a target starting with the
slash keeps the current scheme and host and replaces the path, and any other
target is parsed as an absolute URL with no reference to the current one. -/
theorem chain_location_resolution (fetch : Fetch) (url : URL) (loc : String)
    (n : Nat) (c : List URL) (hn : 2 ≤ n)
    (hf : ∀ m, fetch url m = .resp { ok := true, location := some loc })
    (hc : getRedirectChainTS fetch url n = some c) :
    (startsWithSlash loc = true →
      c.get? 1 = some { scheme := url.scheme, host := url.host, path := loc }) ∧
    (startsWithSlash loc = false → c.get? 1 = URL.parse loc) := by
  obtain ⟨m, rfl⟩ : ∃ m, n = m + 2 := ⟨n - 2, by omega⟩
  have hp := getLocationHeaderTS_const fetch url _ hf
  simp at hp
  rw [getRedirectChainTS] at hc
  rw [walkTS_succ_some fetch (m + 1) url loc hp] at hc
  constructor
  · intro hS
    simp [hS, URL.resolveWithBase, Option.map_eq_some'] at hc
    obtain ⟨rest, hrest, hr⟩ := hc
    subst hr
    have hhd := walkTS_head fetch m _ rest hrest
    cases rest with
    | nil => exact absurd hhd (by simp)
    | cons a t =>
      simp only [List.head?_cons, Option.some.injEq] at hhd
      subst hhd
      rfl
  · intro hS
    simp [hS] at hc
    cases hq : URL.parse loc with
    | none => rw [hq] at hc; exact absurd hc (by simp)
    | some next =>
      rw [hq] at hc
      simp [Option.map_eq_some'] at hc
      obtain ⟨rest, hrest, hr⟩ := hc
      subst hr
      have hhd := walkTS_head fetch m next rest hrest
      cases rest with
      | nil => exact absurd hhd (by simp)
      | cons a t =>
        simp only [List.head?_cons, Option.some.injEq] at hhd
        subst hhd
        rfl

/-- C7, witness: the spec scenario itself, current URL https://example.com/a/b
with Location /c resolving to https://example.com/c. -/
theorem chain_location_resolution_witness :
    getRedirectChainTS relFetch relURL 20 = some [relURL, relNextURL] ∧
    [relURL, relNextURL].get? 1 =
      some { scheme := "https", host := "example.com", path := "/c" } :=
  ⟨by decide,
   (chain_location_resolution relFetch relURL "/c" 20 [relURL, relNextURL]
      (by decide) (fun m => rfl) (by decide)).1 (by decide)⟩

/-- C8: a URL whose probe reports no redirect (every fetch answering with an
ok response carrying no Location header) yields the one-element chain
holding exactly the input URL. -/
theorem no_redirect_singleton (fetch : Fetch) (url : URL) (n : Nat)
    (hn : 1 ≤ n)
    (hf : ∀ m, fetch url m = .resp { ok := true, location := none }) :
    getRedirectChainTS fetch url n = some [url] := by
  obtain ⟨m, rfl⟩ : ∃ m, n = m + 1 := ⟨n - 1, by omega⟩
  have hp := getLocationHeaderTS_const fetch url _ hf
  simp at hp
  exact walkTS_succ_none fetch m url hp

/-- C8, witness at the concrete no-redirect transport. -/
theorem no_redirect_singleton_witness :
    getRedirectChainTS okNoLocFetch exURL 20 = some [exURL] :=
  no_redirect_singleton okNoLocFetch exURL 20 (by decide) (fun m => rfl)

/-- A concrete URL whose hostname is in the policy table. -/
def megaURL : URL := { scheme := "https", host := "mega.nz", path := "/file" }

/-- C9: for a URL whose hostname is in the policy table, neither module ever
issues a HEAD probe; both go straight to the single GET request. -/
theorem policy_domain_skips_head (fetch : Fetch) (url : URL)
    (h : noHeadRequestDomains.contains url.hostname = true) :
    probeRequestsTS fetch url = [Method.get] ∧
    probeRequestsJS fetch url = [Method.get] ∧
    Method.head ∉ probeRequestsTS fetch url := by
  have hJ : noHeadRequestDomainsJS.contains url.hostname = true := by
    rw [contains_tables_eq]; exact h
  have hm : url.hostname ∈ noHeadRequestDomains := by simpa using h
  have hmJ : url.hostname ∈ noHeadRequestDomainsJS := by simpa using hJ
  have h1 : probeRequestsTS fetch url = [Method.get] := by
    unfold probeRequestsTS getLocationHeaderTSRun
    cases hg : fetch url .get <;> simp [hm, hg]
  have h2 : probeRequestsJS fetch url = [Method.get] := by
    unfold probeRequestsJS getLocationHeaderJSRun
    cases hg : fetch url .get <;> simp [hmJ, hg]
  refine ⟨h1, h2, ?_⟩
  rw [h1]
  decide

/-- C9, witness at the concrete mega.nz URL. -/
theorem policy_domain_skips_head_witness :
    noHeadRequestDomains.contains megaURL.hostname = true ∧
    probeRequestsTS okNoLocFetch megaURL = [Method.get] ∧
    probeRequestsJS okNoLocFetch megaURL = [Method.get] ∧
    Method.head ∉ probeRequestsTS okNoLocFetch megaURL := by
  have h := policy_domain_skips_head okNoLocFetch megaURL (by decide)
  exact ⟨by decide, h.1, h.2.1, h.2.2⟩

/-- C10: the TS probe never throws (every failure path yields the ok null
marker), and consequently the TS chain walker returns the failure signal
only when some returned Location header string fails to parse as a URL: if
every absolute Location it can return parses, the result is a chain. -/
theorem ts_probe_total_chain_null_only_on_parse (fetch : Fetch) (url : URL)
    (n : Nat) :
    (∃ v, getLocationHeaderTS fetch url = .ok v) ∧
    ((∀ u s, getLocationHeaderTS fetch u = .ok (some s) →
        startsWithSlash s = false → (URL.parse s).isSome) →
      (getRedirectChainTS fetch url n).isSome) := by
  constructor
  · cases he : getLocationHeaderTS fetch url with
    | error e => exact absurd he (getLocationHeaderTS_ne_error fetch url e)
    | ok v => exact ⟨v, rfl⟩
  · intro hp
    exact walkTS_isSome fetch hp n url

/-- C10, witness: on the all-throwing transport the TS probe still returns
normally and the chain is a value, not the failure signal. -/
theorem ts_probe_total_chain_null_only_on_parse_witness :
    (∃ v, getLocationHeaderTS throwFetch exURL = .ok v) ∧
    (getRedirectChainTS throwFetch exURL 20).isSome := by
  have h := ts_probe_total_chain_null_only_on_parse throwFetch exURL 20
  refine ⟨h.1, h.2 ?_⟩
  intro u s hs hsl
  have h0 : getLocationHeaderTS throwFetch u = .ok none :=
    getLocationHeaderTS_throws throwFetch u rfl rfl
  rw [h0] at hs
  exact absurd hs (by simp)
